import Mathlib

/-!
Shallow embedding of `scripts/fetch_google_poi.py`: a budget-bounded
geospatial crawl of a POI search service (grid generation, budgeted
retrying HTTP fetch with pagination, cross-tile deduplication, row
normalization, batched sink writes, and the orchestrating main loop).

Modelling conventions:
* Python floats are modelled as rationals (`ℚ`).
* The external HTTP service is an oracle `env : Nat → HttpOutcome`
  giving the outcome of the i-th actual request issued in the run
  (a network-layer failure, or an HTTP response with status code and
  decoded JSON payload).
* `requests.get` / `time.sleep` side effects are threaded through an
  explicit `FetchState` (requests issued so far, budget counter, log
  of sleep durations).
* `hashlib.sha256` and `json.dumps` are opaque library functions; the
  embedding takes them as function parameters.
-/

namespace GooglePoi

/-- Constant `MAX_PAGES_PER_TILE` from the script header. -/
def MAX_PAGES_PER_TILE : Nat := 3

/-- Constant `MAX_API_CALLS_TOTAL` from the script header. -/
def MAX_API_CALLS_TOTAL : Nat := 10

/-- Constant `BQ_BATCH_SIZE` from the script header. -/
def BQ_BATCH_SIZE : Nat := 500

/-- Constant `MAX_HTTP_RETRIES` from the script header. -/
def MAX_HTTP_RETRIES : Nat := 3

/-- Constant `BACKOFF_BASE_SEC` from the script header. -/
def BACKOFF_BASE_SEC : ℚ := 1

/-- Constant `SLEEP_FOR_NEXT_PAGE_TOKEN_SEC` from the script header. -/
def SLEEP_FOR_NEXT_PAGE_TOKEN_SEC : ℚ := 2

/-- Constant `SLEEP_BETWEEN_CALLS_SEC` from the script header. -/
def SLEEP_BETWEEN_CALLS_SEC : ℚ := 0.2

/-- The nested `location` object of a place's `geometry` field. -/
structure GeoLoc where
  lat : Option ℚ
  lng : Option ℚ
  deriving DecidableEq, Repr

/-- A place's `geometry` field. -/
structure Geometry where
  location : Option GeoLoc
  deriving DecidableEq, Repr

/-- One raw search-result record (`p` in `to_bq_rows`); only the keys the
script reads are modelled, `none` standing for an absent or null key. -/
structure Place where
  place_id : Option String
  name : Option String
  vicinity : Option String
  business_status : Option String
  types : Option (List String)
  rating : Option ℚ
  user_ratings_total : Option Int
  price_level : Option Int
  geometry : Option Geometry
  deriving DecidableEq, Repr

/-- The decoded JSON body of a nearby-search response: the keys
`fetch_nearby_all_pages` reads (`status`, `results`, `next_page_token`). -/
structure Payload where
  status : Option String
  results : List Place
  next_page_token : Option String
  deriving DecidableEq, Repr

/-- Outcome of one actual `requests.get` call: either the network layer
raises (`Timeout` / `ConnectionError`) before a response exists, or an
HTTP response arrives with a status code and a decoded body. -/
inductive HttpOutcome where
  | netFail : HttpOutcome
  | resp (status_code : Nat) (payload : Payload) : HttpOutcome
  deriving DecidableEq, Repr

/-- Is the outcome an HTTP response (as opposed to a network failure)? -/
def HttpOutcome.isResp : HttpOutcome → Bool
  | .netFail => false
  | .resp _ _ => true

/-- The mutable process state touched by the fetch path:
`api_call_counter` (the global budget counter), the number of actual
`requests.get` calls issued so far (`sent`, the index into the oracle),
and the chronological log of `time.sleep` durations. -/
structure FetchState where
  api_call_counter : Nat
  sent : Nat
  sleeps : List ℚ
  deriving DecidableEq, Repr

/-- Python truthiness of an optional string (`if tok:`): `None` and the
empty string are falsy. -/
def truthyStr : Option String → Bool
  | none => false
  | some s => !(s == "")

/-- The backoff wait computed at line 130 of the script:
`min(BACKOFF_BASE_SEC * (2 ** (attempt - 1)), 10)`. -/
def backoffWait (attempt : Nat) : ℚ :=
  min (BACKOFF_BASE_SEC * 2 ^ (attempt - 1)) 10

/-- The retry loop body of `http_get_with_retry` (lines 112-135).
`fuel` is the number of loop iterations left (`MAX_HTTP_RETRIES` at
entry), `attempt` the 1-based attempt index.  Each iteration first
checks the budget; then issues a request (consuming one oracle index).
A network failure raises before `api_call_counter += 1`, so it does not
increment the counter.  A response increments the counter; status codes
500/502/503/504 raise `HTTPError` explicitly, and `raise_for_status()`
raises `HTTPError` for every 4xx/5xx status — all of these are caught
by the `except (HTTPError, Timeout, ConnectionError)` clause, which
sleeps the backoff wait and retries.  Any other status returns the
decoded body. -/
def httpAttemptLoop (env : Nat → HttpOutcome) (limit : Nat) :
    Nat → Nat → FetchState → Option Payload × FetchState
  | 0, _, s => (none, s)
  | Nat.succ rest, attempt, s =>
    if limit ≤ s.api_call_counter then
      (none, s)
    else
      match env s.sent with
      | HttpOutcome.netFail =>
          httpAttemptLoop env limit rest (attempt + 1)
            { s with sent := s.sent + 1, sleeps := s.sleeps ++ [backoffWait attempt] }
      | HttpOutcome.resp code payload =>
          let s1 : FetchState :=
            { s with api_call_counter := s.api_call_counter + 1, sent := s.sent + 1 }
          if code = 500 ∨ code = 502 ∨ code = 503 ∨ code = 504 then
            httpAttemptLoop env limit rest (attempt + 1)
              { s1 with sleeps := s1.sleeps ++ [backoffWait attempt] }
          else if 400 ≤ code ∧ code < 600 then
            httpAttemptLoop env limit rest (attempt + 1)
              { s1 with sleeps := s1.sleeps ++ [backoffWait attempt] }
          else
            (some payload, s1)

/-- Embedding of `http_get_with_retry(url, params)` (lines 105-135).  The URL and
params only address the external service, which the oracle models, so
they are not part of the embedding's arguments. -/
def http_get_with_retry (env : Nat → HttpOutcome) (limit : Nat)
    (s : FetchState) : Option Payload × FetchState :=
  httpAttemptLoop env limit MAX_HTTP_RETRIES 1 s

/-- The `time.sleep(SLEEP_FOR_NEXT_PAGE_TOKEN_SEC)` before a
continuation-token request (lines 147-148): fires only when the token
is truthy. -/
def pageSleep (tok : Option String) (s : FetchState) : FetchState :=
  if truthyStr tok then { s with sleeps := s.sleeps ++ [SLEEP_FOR_NEXT_PAGE_TOKEN_SEC] }
  else s

/-- The `time.sleep(10)` on an `OVER_QUERY_LIMIT` body status
(line 165). -/
def oqlSleep (s : FetchState) : FetchState :=
  { s with sleeps := s.sleeps ++ [10] }

/-- The `for page in range(MAX_PAGES_PER_TILE)` loop body of
`fetch_nearby_all_pages` (lines 142-185), with the accumulated results
(`all_results`), the current continuation token (`next_token`) and the
process state threaded explicitly.  `pages` is the number of loop
iterations left.  Every early exit (`break`) returns the accumulator.
The tile coordinates and keyword only shape the request params, which
the oracle models, so they are not arguments of the embedding. -/
def fetchPagesLoop (env : Nat → HttpOutcome) (limit : Nat) :
    Nat → List Place → Option String → FetchState → List Place × FetchState
  | 0, acc, _, s => (acc, s)
  | Nat.succ pages, acc, tok, s =>
    if limit ≤ s.api_call_counter then
      (acc, s)
    else
      match http_get_with_retry env limit (pageSleep tok s) with
      | (none, s1) => (acc, s1)
      | (some payload, s1) =>
        let retried : Option Payload × FetchState :=
          if payload.status = some "OVER_QUERY_LIMIT" then
            http_get_with_retry env limit (oqlSleep s1)
          else (some payload, s1)
        match retried with
        | (none, s2) => (acc, s2)
        | (some pl, s2) =>
          if pl.status = some "OK" ∨ pl.status = some "ZERO_RESULTS" then
            let acc2 := acc ++ pl.results
            if truthyStr pl.next_page_token then
              fetchPagesLoop env limit pages acc2 pl.next_page_token s2
            else (acc2, s2)
          else (acc, s2)

/-- Embedding of `fetch_nearby_all_pages(lat, lng, keyword)` (lines 138-187). -/
def fetch_nearby_all_pages (env : Nat → HttpOutcome) (limit : Nat)
    (s : FetchState) : List Place × FetchState :=
  fetchPagesLoop env limit MAX_PAGES_PER_TILE [] none s

/-- Embedding of `stable_row_id(location, keyword, place_id)` (lines 63-65); the
sha256 hex digest is the opaque parameter `hash`. -/
def stable_row_id (hash : String → String)
    (location keyword place_id : String) : String :=
  hash (location ++ "||" ++ keyword ++ "||" ++ place_id)

/-- Embedding of `build_google_maps_url(place_id)` (lines 68-70). -/
def build_google_maps_url (place_id : String) : String :=
  "https://www.google.com/maps/place/?q=place_id:" ++ place_id

/-- One output row of `to_bq_rows` (the dict built at lines 201-223). -/
structure Row where
  fetched_at : String
  location : String
  keyword : String
  row_id : String
  place_id : String
  google_maps_url : String
  name : Option String
  formatted_address : Option String
  business_status : Option String
  types : List String
  rating : Option ℚ
  user_ratings_total : Option Int
  price_level : Option Int
  lat : Option ℚ
  lng : Option ℚ
  raw_json : String
  deriving DecidableEq, Repr

/-- Embedding of `(p.get("geometry") or ...).get("location") or ...` (line 199). -/
def geomOf (p : Place) : GeoLoc :=
  match p.geometry with
  | none => { lat := none, lng := none }
  | some g =>
    match g.location with
    | none => { lat := none, lng := none }
    | some loc => loc

/-- Embedding of `to_bq_rows(location, keyword, places)` (lines 190-225).
`fetched_at` is the single `now_utc_iso()` clock read at entry (line
191); `dumps` is the opaque `json.dumps`.  A record whose `place_id` is
absent or empty (falsy) is skipped. -/
def to_bq_rows (hash : String → String) (dumps : Place → String)
    (fetched_at location keyword : String) : List Place → List Row
  | [] => []
  | p :: ps =>
    match p.place_id with
    | none => to_bq_rows hash dumps fetched_at location keyword ps
    | some pid =>
      if pid = "" then to_bq_rows hash dumps fetched_at location keyword ps
      else
        { fetched_at := fetched_at
          location := location
          keyword := keyword
          row_id := stable_row_id hash location keyword pid
          place_id := pid
          google_maps_url := build_google_maps_url pid
          name := p.name
          formatted_address := p.vicinity
          business_status := p.business_status
          types := p.types.getD []
          rating := p.rating
          user_ratings_total := p.user_ratings_total
          price_level := p.price_level
          lat := (geomOf p).lat
          lng := (geomOf p).lng
          raw_json := dumps p } :: to_bq_rows hash dumps fetched_at location keyword ps

/-- Erase the one clock-dependent field of a row, for stating that
normalization is deterministic modulo `fetched_at`. -/
def stripTime (r : Row) : Row := { r with fetched_at := "" }

/-- The deduplication loop of `main` (lines 284-289): walk the fetched
places, admitting a place whose `place_id` is truthy and not yet in
`seen_place_ids`; admission inserts the id into the set and appends the
place to `unique`.  Returns (`unique`, updated seen set). -/
def dedupLoop (seen : Finset String) : List Place → List Place × Finset String
  | [] => ([], seen)
  | p :: ps =>
    match p.place_id with
    | none => dedupLoop seen ps
    | some pid =>
      if pid ≠ "" ∧ pid ∉ seen then
        let rest := dedupLoop (insert pid seen) ps
        (p :: rest.1, rest.2)
      else dedupLoop seen ps

/-- The batch loop of `insert_rows_batched_with_logs` (lines 242-256):
chunks of `BQ_BATCH_SIZE` rows; the sink oracle `errs` gives the
row-level error list the `insert_rows_json` call for batch `idx`
returns.  An errored batch contributes `max(len(chunk) - len(errors),
0)` to `inserted` (`Nat` subtraction is exactly this `max`) and logs
the sample `errors[:2]`; a clean batch contributes `len(chunk)`.
Returns (`inserted`, logged samples).  `fuel ≥ rows.length` iterations
always suffice. -/
def insertBatchLoop {α : Type} (errs : Nat → List String) :
    Nat → Nat → List α → Nat × List (List String)
  | 0, _, _ => (0, [])
  | Nat.succ fuel, idx, rows =>
    if rows.isEmpty then (0, [])
    else
      let chunk := rows.take BQ_BATCH_SIZE
      let errors := errs idx
      let rest := insertBatchLoop errs fuel (idx + 1) (rows.drop BQ_BATCH_SIZE)
      if errors ≠ [] then
        (chunk.length - errors.length + rest.1, errors.take 2 :: rest.2)
      else
        (chunk.length + rest.1, rest.2)

/-- Embedding of `insert_rows_batched_with_logs(client, table, rows, context)`
(lines 228-258); an empty `rows` list short-circuits to 0 inserted. -/
def insert_rows_batched_with_logs {α : Type} (errs : Nat → List String)
    (rows : List α) : Nat × List (List String) :=
  insertBatchLoop errs rows.length 0 rows

/-- The orchestrator's per-run mutable state (`main`, lines 269-272),
bundled with the fetch-path state. -/
structure RunState where
  fs : FetchState
  seen_place_ids : Finset String
  total_found_unique : Nat
  total_inserted : Nat
  tile_idx : Nat
  deriving DecidableEq

/-- The body of one (keyword, tile) iteration of `main` (lines
281-300): fetch all pages, filter through the dedup loop, normalize,
batch-insert, update counters.  `sink` gives the error oracle of the
insert calls of tile iteration `i`; `clock` gives the `now_utc_iso()`
reading of tile iteration `i`. -/
def tileStep (env : Nat → HttpOutcome) (limit : Nat)
    (sink : Nat → Nat → List String) (hash : String → String)
    (dumps : Place → String) (clock : Nat → String)
    (location keyword : String) (st : RunState) : RunState :=
  let fetched := fetch_nearby_all_pages env limit st.fs
  let deduped := dedupLoop st.seen_place_ids fetched.1
  let rows := to_bq_rows hash dumps (clock st.tile_idx) location keyword deduped.1
  let ins := insert_rows_batched_with_logs (sink st.tile_idx) rows
  { fs := { fetched.2 with sleeps := fetched.2.sleeps ++ [SLEEP_BETWEEN_CALLS_SEC] }
    seen_place_ids := deduped.2
    total_found_unique := st.total_found_unique + deduped.1.length
    total_inserted := st.total_inserted + ins.1
    tile_idx := st.tile_idx + 1 }

/-- The keyword × tile double loop of `main` (lines 274-300), flattened
into a single list of (keyword, tile) pairs in iteration order.  The
budget check at line 276 returns from `main` (ending the whole run)
when the counter has reached the limit. -/
def mainLoop (env : Nat → HttpOutcome) (limit : Nat)
    (sink : Nat → Nat → List String) (hash : String → String)
    (dumps : Place → String) (clock : Nat → String) (location : String) :
    List (String × ℚ × ℚ) → RunState → RunState
  | [], st => st
  | (kw, _tile) :: rest, st =>
    if limit ≤ st.fs.api_call_counter then st
    else
      mainLoop env limit sink hash dumps clock location rest
        (tileStep env limit sink hash dumps clock location kw st)

/-- The run state at entry of `main`'s loop: zero counters, empty seen
set (lines 41, 269-272). -/
def initialRunState : RunState :=
  { fs := { api_call_counter := 0, sent := 0, sleeps := [] }
    seen_place_ids := ∅
    total_found_unique := 0
    total_inserted := 0
    tile_idx := 0 }

/-- Embedding of `meters_to_lat_deg(m)` (lines 73-74). -/
def meters_to_lat_deg (m : ℚ) : ℚ := m / 111320

/-- Embedding of `round(x, 6)` on the loop coordinates (line 93), modelled as exact
rational rounding to 6 decimal places.  (Python rounds the binary
float half-to-even; the idealization agrees except at exact midpoints
of the 10⁻⁶ grid, and satisfies the same half-ulp error bound.) -/
def round6 (x : ℚ) : ℚ := (round (x * 1000000) : ℤ) / 1000000

/-- One axis of the nested `while` loops of `generate_grid_points`
(lines 89-95): from `v`, step by `stepDeg` while `v ≤ maxv`, collecting
the (unrounded) loop values.  `fuel` bounds the number of iterations;
`axisFuel` below always suffices when `0 < stepDeg`. -/
def axisLoopAux (stepDeg maxv : ℚ) : Nat → ℚ → List ℚ
  | 0, _ => []
  | Nat.succ fuel, v =>
    if v ≤ maxv then v :: axisLoopAux stepDeg maxv fuel (v + stepDeg) else []

/-- Iterations needed by `axisLoopAux` when the step is positive. -/
def axisFuel (minv maxv stepDeg : ℚ) : Nat :=
  (⌈(maxv - minv) / stepDeg⌉).toNat + 1

/-- Observer for the termination behaviour of one axis loop: `true`
iff the `while` condition becomes false within `fuel` iterations. -/
def axisLoopExits (stepDeg maxv : ℚ) : Nat → ℚ → Bool
  | 0, _ => false
  | Nat.succ fuel, v =>
    if v ≤ maxv then axisLoopExits stepDeg maxv fuel (v + stepDeg) else true

/-- The bounding box dict (`ROTTERDAM_BBOX` shape, line 34). -/
structure Bbox where
  min_lat : ℚ
  max_lat : ℚ
  min_lng : ℚ
  max_lng : ℚ
  deriving DecidableEq, Repr

/-- Embedding of `generate_grid_points(bbox, step_m)` (lines 81-96): row-major
(longitude varies fastest), yielding coordinates rounded to 6 places.
The degree steps `latStep` / `lngStep` are taken as parameters: in the
script they are `meters_to_lat_deg(step_m)` and
`meters_to_lng_deg(step_m, mid_lat)`, the latter involving
`math.cos`, which has no exact rational embedding. -/
def generate_grid_points (bbox : Bbox) (latStep lngStep : ℚ) : List (ℚ × ℚ) :=
  (axisLoopAux latStep bbox.max_lat
      (axisFuel bbox.min_lat bbox.max_lat latStep) bbox.min_lat).flatMap
    fun la =>
      (axisLoopAux lngStep bbox.max_lng
          (axisFuel bbox.min_lng bbox.max_lng lngStep) bbox.min_lng).map
        fun ln => (round6 la, round6 ln)

/-- Constant `ROTTERDAM_BBOX` (line 34). -/
def ROTTERDAM_BBOX : Bbox :=
  { min_lat := 51.87, max_lat := 52.02, min_lng := 4.35, max_lng := 4.60 }

/-- The four corners of a bounding box. -/
def corners (bbox : Bbox) : List (ℚ × ℚ) :=
  [(bbox.min_lat, bbox.min_lng), (bbox.min_lat, bbox.max_lng),
   (bbox.max_lat, bbox.min_lng), (bbox.max_lat, bbox.max_lng)]

/-- The fetch-path state at process start (line 41: counter zero, no
request issued yet). -/
def initialFetchState : FetchState :=
  { api_call_counter := 0, sent := 0, sleeps := [] }

/-- Number of oracle indices in `[a, a + n)` whose outcome is an HTTP
response (rather than a network-layer failure). -/
def respCountRange (env : Nat → HttpOutcome) : Nat → Nat → Nat
  | _, 0 => 0
  | a, Nat.succ n =>
    (if (env a).isResp then 1 else 0) + respCountRange env (a + 1) n

/-- An empty `OK` payload, for concrete runs. -/
def okPayload : Payload := { status := some "OK", results := [], next_page_token := none }

/-- Oracle for the non-transient-failure run: the service answers every
request with HTTP 404. -/
def c3env : Nat → HttpOutcome := fun _ => HttpOutcome.resp 404 okPayload

/-- Oracle for the network-failure run: the first request times out,
every later one succeeds with HTTP 200. -/
def c5env : Nat → HttpOutcome :=
  fun i => if i = 0 then HttpOutcome.netFail else HttpOutcome.resp 200 okPayload

/-- Oracle for the unrecognized-status run: every request yields HTTP
200 with body status `INVALID_REQUEST`. -/
def c9env : Nat → HttpOutcome :=
  fun _ => HttpOutcome.resp 200
    { status := some "INVALID_REQUEST", results := [], next_page_token := none }

/-- A bounding box spanning 0.9 grid steps on both axes (for steps of
0.01 degrees). -/
def c4bbox : Bbox := { min_lat := 0, max_lat := 9/1000, min_lng := 0, max_lng := 9/1000 }

/-- Sink oracle reporting two row-level errors on the first batch and
none afterwards. -/
def c8errs : Nat → List String :=
  fun i => if i = 0 then ["rowError1", "rowError2"] else []

/-- Oracle of an always-successful service (HTTP 200, `OK` body). -/
def c1env : Nat → HttpOutcome := fun _ => HttpOutcome.resp 200 okPayload

/-- A fetch state whose budget counter already equals
`MAX_API_CALLS_TOTAL`. -/
def c1exhausted : FetchState :=
  { api_call_counter := MAX_API_CALLS_TOTAL, sent := 0, sleeps := [] }

/-- The state after the single `INVALID_REQUEST` response of `c9env`:
one request sent and counted, no sleeps. -/
def c9state : FetchState := { api_call_counter := 1, sent := 1, sleeps := [] }

/-- A concrete identity stand-in for the opaque sha256 hex digest. -/
def c7hash : String → String := fun s => s

/-- A concrete stand-in for the opaque `json.dumps`. -/
def c7dumps : Place → String := fun _ => "raw"

/-- The row `to_bq_rows` produces for `placeA` under `c7hash`,
`c7dumps`, clock reading `"t1"`, location `"L"`, keyword `"K"`. -/
def c7row : Row :=
  { fetched_at := "t1", location := "L", keyword := "K"
    row_id := "L||K||pid1", place_id := "pid1"
    google_maps_url := "https://www.google.com/maps/place/?q=place_id:pid1"
    name := some "A", formatted_address := some "Main St 1"
    business_status := some "OPERATIONAL", types := ["bakery"]
    rating := some 4, user_ratings_total := some 10, price_level := none
    lat := some 51, lng := some 4, raw_json := "raw" }

/-- A concrete raw place record with identifier `"pid1"`. -/
def placeA : Place :=
  { place_id := some "pid1", name := some "A", vicinity := some "Main St 1"
    business_status := some "OPERATIONAL", types := some ["bakery"]
    rating := some 4, user_ratings_total := some 10, price_level := none
    geometry := some { location := some { lat := some 51, lng := some 4 } } }

/-- A concrete raw place record with identifier `"pid2"`. -/
def placeB : Place :=
  { place_id := some "pid2", name := some "B", vicinity := none
    business_status := none, types := none
    rating := none, user_ratings_total := none, price_level := none
    geometry := none }

/-- A second occurrence of entity `"pid1"`, with different payload. -/
def placeA2 : Place :=
  { place_id := some "pid1", name := some "A again", vicinity := none
    business_status := none, types := none
    rating := none, user_ratings_total := none, price_level := none
    geometry := none }

/-- A raw record whose `place_id` is missing (falsy). -/
def placeNoId : Place :=
  { place_id := none, name := some "anon", vicinity := none
    business_status := none, types := none
    rating := none, user_ratings_total := none, price_level := none
    geometry := none }

end GooglePoi

namespace GooglePoi

/-! ### Step lemmas for the HTTP retry loop -/

lemma httpAttemptLoop_zero (env : Nat → HttpOutcome) (limit attempt : Nat) (s : FetchState) :
    httpAttemptLoop env limit 0 attempt s = (none, s) := by
  simp [httpAttemptLoop]

lemma httpAttemptLoop_refused (env : Nat → HttpOutcome) (limit fuel attempt : Nat)
    (s : FetchState) (h : limit ≤ s.api_call_counter) :
    httpAttemptLoop env limit fuel attempt s = (none, s) := by
  cases fuel with
  | zero => simp [httpAttemptLoop]
  | succ n => simp [httpAttemptLoop, h]

lemma httpAttemptLoop_netFail (env : Nat → HttpOutcome) (limit n attempt : Nat)
    (s : FetchState) (hb : ¬ limit ≤ s.api_call_counter)
    (henv : env s.sent = HttpOutcome.netFail) :
    httpAttemptLoop env limit (n + 1) attempt s
      = httpAttemptLoop env limit n (attempt + 1)
          { s with sent := s.sent + 1, sleeps := s.sleeps ++ [backoffWait attempt] } := by
  simp [httpAttemptLoop, hb, henv]

lemma httpAttemptLoop_retry (env : Nat → HttpOutcome) (limit n attempt : Nat)
    (s : FetchState) (code : Nat) (payload : Payload)
    (hb : ¬ limit ≤ s.api_call_counter)
    (henv : env s.sent = HttpOutcome.resp code payload)
    (h : (code = 500 ∨ code = 502 ∨ code = 503 ∨ code = 504) ∨ (400 ≤ code ∧ code < 600)) :
    httpAttemptLoop env limit (n + 1) attempt s
      = httpAttemptLoop env limit n (attempt + 1)
          { api_call_counter := s.api_call_counter + 1, sent := s.sent + 1,
            sleeps := s.sleeps ++ [backoffWait attempt] } := by
  by_cases h5 : code = 500 ∨ code = 502 ∨ code = 503 ∨ code = 504
  · simp [httpAttemptLoop, hb, henv, h5]
  · have h4 : 400 ≤ code ∧ code < 600 := h.resolve_left h5
    simp [httpAttemptLoop, hb, henv, h5, h4]

lemma httpAttemptLoop_ok (env : Nat → HttpOutcome) (limit n attempt : Nat)
    (s : FetchState) (code : Nat) (payload : Payload)
    (hb : ¬ limit ≤ s.api_call_counter)
    (henv : env s.sent = HttpOutcome.resp code payload)
    (h5 : ¬ (code = 500 ∨ code = 502 ∨ code = 503 ∨ code = 504))
    (h4 : ¬ (400 ≤ code ∧ code < 600)) :
    httpAttemptLoop env limit (n + 1) attempt s
      = (some payload,
          { api_call_counter := s.api_call_counter + 1, sent := s.sent + 1,
            sleeps := s.sleeps }) := by
  simp [httpAttemptLoop, hb, henv, h5, h4]

/-! ### Budget-counter invariants of the HTTP layer -/

lemma httpAttemptLoop_counter_le (env : Nat → HttpOutcome) (limit : Nat) :
    ∀ (fuel attempt : Nat) (s : FetchState), s.api_call_counter ≤ limit →
      (httpAttemptLoop env limit fuel attempt s).2.api_call_counter ≤ limit := by
  intro fuel
  induction fuel with
  | zero => intro attempt s h; simpa [httpAttemptLoop_zero] using h
  | succ n ih =>
    intro attempt s h
    by_cases hb : limit ≤ s.api_call_counter
    · simpa [httpAttemptLoop_refused env limit _ _ s hb] using h
    · have hlt : s.api_call_counter < limit := lt_of_not_le hb
      cases henv : env s.sent with
      | netFail =>
        rw [httpAttemptLoop_netFail env limit n attempt s hb henv]
        exact ih _ _ h
      | resp code payload =>
        by_cases h5 : code = 500 ∨ code = 502 ∨ code = 503 ∨ code = 504
        · rw [httpAttemptLoop_retry env limit n attempt s code payload hb henv (Or.inl h5)]
          exact ih _ _ hlt
        · by_cases h4 : 400 ≤ code ∧ code < 600
          · rw [httpAttemptLoop_retry env limit n attempt s code payload hb henv (Or.inr h4)]
            exact ih _ _ hlt
          · rw [httpAttemptLoop_ok env limit n attempt s code payload hb henv h5 h4]
            exact hlt

lemma http_get_with_retry_counter_le (env : Nat → HttpOutcome) (limit : Nat)
    (s : FetchState) (h : s.api_call_counter ≤ limit) :
    (http_get_with_retry env limit s).2.api_call_counter ≤ limit :=
  httpAttemptLoop_counter_le env limit MAX_HTTP_RETRIES 1 s h

lemma http_get_with_retry_refused (env : Nat → HttpOutcome) (limit : Nat)
    (s : FetchState) (h : limit ≤ s.api_call_counter) :
    http_get_with_retry env limit s = (none, s) :=
  httpAttemptLoop_refused env limit MAX_HTTP_RETRIES 1 s h

/-! ### Counter increments exactly on HTTP responses -/

lemma respCountRange_succ (env : Nat → HttpOutcome) (a n : Nat) :
    respCountRange env a (n + 1)
      = (if (env a).isResp then 1 else 0) + respCountRange env (a + 1) n := rfl

lemma httpAttemptLoop_sent_mono (env : Nat → HttpOutcome) (limit : Nat) :
    ∀ (fuel attempt : Nat) (s : FetchState),
      s.sent ≤ (httpAttemptLoop env limit fuel attempt s).2.sent := by
  intro fuel
  induction fuel with
  | zero => intro attempt s; simp [httpAttemptLoop_zero]
  | succ n ih =>
    intro attempt s
    by_cases hb : limit ≤ s.api_call_counter
    · simp [httpAttemptLoop_refused env limit _ _ s hb]
    · cases henv : env s.sent with
      | netFail =>
        rw [httpAttemptLoop_netFail env limit n attempt s hb henv]
        set s1 : FetchState := { s with sent := s.sent + 1, sleeps := s.sleeps ++ [backoffWait attempt] } with hs1
        have hm := ih (attempt + 1) s1
        have hsent : s1.sent = s.sent + 1 := rfl
        omega
      | resp code payload =>
        by_cases hr : (code = 500 ∨ code = 502 ∨ code = 503 ∨ code = 504) ∨ (400 ≤ code ∧ code < 600)
        · rw [httpAttemptLoop_retry env limit n attempt s code payload hb henv hr]
          set s1 : FetchState := { api_call_counter := s.api_call_counter + 1, sent := s.sent + 1, sleeps := s.sleeps ++ [backoffWait attempt] } with hs1
          have hm := ih (attempt + 1) s1
          have hsent : s1.sent = s.sent + 1 := rfl
          omega
        · have h5 : ¬ (code = 500 ∨ code = 502 ∨ code = 503 ∨ code = 504) :=
            fun hc => hr (Or.inl hc)
          have h4 : ¬ (400 ≤ code ∧ code < 600) := fun hc => hr (Or.inr hc)
          rw [httpAttemptLoop_ok env limit n attempt s code payload hb henv h5 h4]
          simp

lemma httpAttemptLoop_counter_eq (env : Nat → HttpOutcome) (limit : Nat) :
    ∀ (fuel attempt : Nat) (s : FetchState),
      (httpAttemptLoop env limit fuel attempt s).2.api_call_counter
        = s.api_call_counter
          + respCountRange env s.sent
              ((httpAttemptLoop env limit fuel attempt s).2.sent - s.sent) := by
  intro fuel
  induction fuel with
  | zero => intro attempt s; simp [httpAttemptLoop_zero, respCountRange]
  | succ n ih =>
    intro attempt s
    by_cases hb : limit ≤ s.api_call_counter
    · simp [httpAttemptLoop_refused env limit _ _ s hb, respCountRange]
    · cases henv : env s.sent with
      | netFail =>
        rw [httpAttemptLoop_netFail env limit n attempt s hb henv]
        set s1 : FetchState := { s with sent := s.sent + 1, sleeps := s.sleeps ++ [backoffWait attempt] }
        have hm := httpAttemptLoop_sent_mono env limit n (attempt + 1) s1
        have h := ih (attempt + 1) s1
        have hsent : s1.sent = s.sent + 1 := rfl
        have hcnt : s1.api_call_counter = s.api_call_counter := rfl
        rw [hsent] at hm
        rw [hsent, hcnt] at h
        have hk : (httpAttemptLoop env limit n (attempt + 1) s1).2.sent - s.sent
            = ((httpAttemptLoop env limit n (attempt + 1) s1).2.sent - (s.sent + 1)) + 1 := by
          omega
        rw [hk, respCountRange_succ, henv, if_neg (by simp [HttpOutcome.isResp])]
        omega
      | resp code payload =>
        by_cases hr : (code = 500 ∨ code = 502 ∨ code = 503 ∨ code = 504) ∨ (400 ≤ code ∧ code < 600)
        · rw [httpAttemptLoop_retry env limit n attempt s code payload hb henv hr]
          set s1 : FetchState := { api_call_counter := s.api_call_counter + 1, sent := s.sent + 1, sleeps := s.sleeps ++ [backoffWait attempt] }
          have hm := httpAttemptLoop_sent_mono env limit n (attempt + 1) s1
          have h := ih (attempt + 1) s1
          have hsent : s1.sent = s.sent + 1 := rfl
          have hcnt : s1.api_call_counter = s.api_call_counter + 1 := rfl
          rw [hsent] at hm
          rw [hsent, hcnt] at h
          have hk : (httpAttemptLoop env limit n (attempt + 1) s1).2.sent - s.sent
              = ((httpAttemptLoop env limit n (attempt + 1) s1).2.sent - (s.sent + 1)) + 1 := by
            omega
          rw [hk, respCountRange_succ, henv, if_pos (by simp [HttpOutcome.isResp])]
          omega
        · have h5 : ¬ (code = 500 ∨ code = 502 ∨ code = 503 ∨ code = 504) :=
            fun hc => hr (Or.inl hc)
          have h4 : ¬ (400 ≤ code ∧ code < 600) := fun hc => hr (Or.inr hc)
          rw [httpAttemptLoop_ok env limit n attempt s code payload hb henv h5 h4]
          simp [respCountRange, henv, HttpOutcome.isResp]

/-! ### Pagination loop: budget preservation and accumulator safety -/

lemma pageSleep_counter (tok : Option String) (s : FetchState) :
    (pageSleep tok s).api_call_counter = s.api_call_counter := by
  unfold pageSleep
  split <;> rfl

lemma oqlSleep_counter (s : FetchState) :
    (oqlSleep s).api_call_counter = s.api_call_counter := rfl

lemma fetchPagesLoop_refused (env : Nat → HttpOutcome) (limit n : Nat)
    (acc : List Place) (tok : Option String) (s : FetchState)
    (h : limit ≤ s.api_call_counter) :
    fetchPagesLoop env limit (n + 1) acc tok s = (acc, s) := by
  simp [fetchPagesLoop, h]

lemma fetchPagesLoop_counter_le (env : Nat → HttpOutcome) (limit : Nat) :
    ∀ (pages : Nat) (acc : List Place) (tok : Option String) (s : FetchState),
      s.api_call_counter ≤ limit →
      (fetchPagesLoop env limit pages acc tok s).2.api_call_counter ≤ limit := by
  intro pages
  induction pages with
  | zero => intro acc tok s h; simpa [fetchPagesLoop] using h
  | succ n ih =>
    intro acc tok s h
    by_cases hb : limit ≤ s.api_call_counter
    · simpa [fetchPagesLoop_refused env limit n acc tok s hb] using h
    · rw [fetchPagesLoop]
      simp only [hb, if_false]
      have hs0 : (pageSleep tok s).api_call_counter ≤ limit := by
        rw [pageSleep_counter]
        exact h
      cases hh : http_get_with_retry env limit (pageSleep tok s) with
      | mk op s1 =>
        have h1 : s1.api_call_counter ≤ limit := by
          have hc := http_get_with_retry_counter_le env limit (pageSleep tok s) hs0
          rw [hh] at hc
          exact hc
        cases op with
        | none => simpa using h1
        | some payload =>
          simp only
          by_cases hoql : payload.status = some "OVER_QUERY_LIMIT"
          · rw [if_pos hoql]
            cases hh2 : http_get_with_retry env limit (oqlSleep s1) with
            | mk op2 s2 =>
              have h2 : s2.api_call_counter ≤ limit := by
                have h1o : (oqlSleep s1).api_call_counter ≤ limit := h1
                have hc := http_get_with_retry_counter_le env limit (oqlSleep s1) h1o
                rw [hh2] at hc
                exact hc
              cases op2 with
              | none => simpa using h2
              | some pl =>
                simp only
                by_cases hst : pl.status = some "OK" ∨ pl.status = some "ZERO_RESULTS"
                · rw [if_pos hst]
                  by_cases htok : truthyStr pl.next_page_token
                  · rw [if_pos htok]
                    exact ih _ _ _ h2
                  · rw [if_neg htok]
                    exact h2
                · rw [if_neg hst]
                  exact h2
          · rw [if_neg hoql]
            simp only
            by_cases hst : payload.status = some "OK" ∨ payload.status = some "ZERO_RESULTS"
            · rw [if_pos hst]
              by_cases htok : truthyStr payload.next_page_token
              · rw [if_pos htok]
                exact ih _ _ _ h1
              · rw [if_neg htok]
                exact h1
            · rw [if_neg hst]
              exact h1

lemma fetchPagesLoop_acc (env : Nat → HttpOutcome) (limit : Nat) :
    ∀ (pages : Nat) (tok : Option String) (s : FetchState) (acc : List Place),
      (fetchPagesLoop env limit pages acc tok s).1
          = acc ++ (fetchPagesLoop env limit pages [] tok s).1
        ∧ (fetchPagesLoop env limit pages acc tok s).2
          = (fetchPagesLoop env limit pages [] tok s).2 := by
  intro pages
  induction pages with
  | zero => intro tok s acc; simp [fetchPagesLoop]
  | succ n ih =>
    intro tok s acc
    by_cases hb : limit ≤ s.api_call_counter
    · simp [fetchPagesLoop_refused env limit n _ tok s hb]
    · rw [fetchPagesLoop, fetchPagesLoop]
      simp only [hb, if_false]
      cases hh : http_get_with_retry env limit (pageSleep tok s) with
      | mk op s1 =>
        cases op with
        | none => simp
        | some payload =>
          simp only
          by_cases hoql : payload.status = some "OVER_QUERY_LIMIT"
          · rw [if_pos hoql]
            cases hh2 : http_get_with_retry env limit (oqlSleep s1) with
            | mk op2 s2 =>
              cases op2 with
              | none => simp
              | some pl =>
                simp only
                by_cases hst : pl.status = some "OK" ∨ pl.status = some "ZERO_RESULTS"
                · rw [if_pos hst, if_pos hst]
                  by_cases htok : truthyStr pl.next_page_token
                  · rw [if_pos htok, if_pos htok]
                    have h1 := ih pl.next_page_token s2 (acc ++ pl.results)
                    have h2 := ih pl.next_page_token s2 pl.results
                    simp only [List.nil_append]
                    refine ⟨?_, ?_⟩
                    · rw [h1.1, h2.1, List.append_assoc]
                    · rw [h1.2, h2.2]
                  · rw [if_neg htok, if_neg htok]
                    simp
                · rw [if_neg hst, if_neg hst]
                  simp
          · rw [if_neg hoql]
            simp only
            by_cases hst : payload.status = some "OK" ∨ payload.status = some "ZERO_RESULTS"
            · rw [if_pos hst, if_pos hst]
              by_cases htok : truthyStr payload.next_page_token
              · rw [if_pos htok, if_pos htok]
                have h1 := ih payload.next_page_token s1 (acc ++ payload.results)
                have h2 := ih payload.next_page_token s1 payload.results
                simp only [List.nil_append]
                refine ⟨?_, ?_⟩
                · rw [h1.1, h2.1, List.append_assoc]
                · rw [h1.2, h2.2]
              · rw [if_neg htok, if_neg htok]
                simp
            · rw [if_neg hst, if_neg hst]
              simp

/-! ### Deduplication: first-seen-wins -/

lemma dedupLoop_filter (x : String) :
    ∀ (places : List Place) (seen : Finset String),
      ((dedupLoop seen places).1.filter (fun p => decide (p.place_id = some x)))
        = if x ∉ seen ∧ x ≠ "" then
            ((places.filter (fun p => decide (p.place_id = some x))).take 1)
          else [] := by
  intro places
  induction places with
  | nil =>
    intro seen
    simp only [dedupLoop, List.filter_nil, List.take_nil]
    split <;> rfl
  | cons p ps ih =>
    intro seen
    cases hpid : p.place_id with
    | none =>
      rw [dedupLoop, hpid]
      dsimp only
      rw [ih seen]
      have hp : (decide (p.place_id = some x)) = false := by simp [hpid]
      simp [List.filter_cons, hp]
    | some q =>
      rw [dedupLoop, hpid]
      dsimp only
      by_cases hq : q ≠ "" ∧ q ∉ seen
      · rw [if_pos hq]
        by_cases hx : q = x
        · subst hx
          rw [List.filter_cons_of_pos (by simp [hpid]), ih (insert q seen),
            if_neg (fun hc => hc.1 (Finset.mem_insert_self q seen)),
            if_pos (show q ∉ seen ∧ q ≠ "" from ⟨hq.2, hq.1⟩),
            List.filter_cons_of_pos (by simp [hpid])]
          simp
        · rw [List.filter_cons_of_neg (by simp [hpid, hx])]
          rw [List.filter_cons_of_neg (by simp [hpid, hx])]
          rw [ih (insert q seen)]
          have hmem : (x ∉ insert q seen ∧ x ≠ "") ↔ (x ∉ seen ∧ x ≠ "") := by
            constructor
            · intro h
              exact ⟨fun hc => h.1 (Finset.mem_insert_of_mem hc), h.2⟩
            · intro h
              refine ⟨fun hc => ?_, h.2⟩
              rcases Finset.mem_insert.mp hc with hcq | hcs
              · exact hx hcq.symm
              · exact h.1 hcs
          exact if_congr hmem rfl rfl
      · rw [if_neg hq]
        by_cases hx : q = x
        · subst hx
          have hcond : ¬ (q ∉ seen ∧ q ≠ "") := by
            intro hc
            exact hq ⟨hc.2, hc.1⟩
          rw [ih seen, if_neg hcond, if_neg hcond]
        · rw [List.filter_cons_of_neg (by simp [hpid, hx])]
          exact ih seen

lemma dedupLoop_sublist :
    ∀ (places : List Place) (seen : Finset String),
      List.Sublist (dedupLoop seen places).1 places := by
  intro places
  induction places with
  | nil => intro seen; simp [dedupLoop]
  | cons p ps ih =>
    intro seen
    cases hpid : p.place_id with
    | none =>
      rw [dedupLoop, hpid]
      dsimp only
      exact List.Sublist.cons p (ih seen)
    | some q =>
      rw [dedupLoop, hpid]
      dsimp only
      by_cases hq : q ≠ "" ∧ q ∉ seen
      · rw [if_pos hq]
        exact List.Sublist.cons₂ p (ih (insert q seen))
      · rw [if_neg hq]
        exact List.Sublist.cons p (ih seen)

lemma dedupLoop_card :
    ∀ (places : List Place) (seen : Finset String),
      (dedupLoop seen places).2.card = seen.card + (dedupLoop seen places).1.length := by
  intro places
  induction places with
  | nil => intro seen; simp [dedupLoop]
  | cons p ps ih =>
    intro seen
    cases hpid : p.place_id with
    | none =>
      rw [dedupLoop, hpid]
      dsimp only
      exact ih seen
    | some q =>
      rw [dedupLoop, hpid]
      dsimp only
      by_cases hq : q ≠ "" ∧ q ∉ seen
      · rw [if_pos hq]
        simp only [List.length_cons]
        rw [ih (insert q seen), Finset.card_insert_of_not_mem hq.2]
        omega
      · rw [if_neg hq]
        exact ih seen

lemma dedupLoop_truthy :
    ∀ (places : List Place) (seen : Finset String),
      ∀ p ∈ (dedupLoop seen places).1, ∃ q, p.place_id = some q ∧ q ≠ "" ∧ q ∉ seen := by
  intro places
  induction places with
  | nil => intro seen p hp; simp [dedupLoop] at hp
  | cons p ps ih =>
    intro seen r hr
    cases hpid : p.place_id with
    | none =>
      rw [dedupLoop, hpid] at hr
      dsimp only at hr
      exact ih seen r hr
    | some q =>
      rw [dedupLoop, hpid] at hr
      dsimp only at hr
      by_cases hq : q ≠ "" ∧ q ∉ seen
      · rw [if_pos hq] at hr
        rcases List.mem_cons.mp hr with hrp | hrm
        · subst hrp
          exact ⟨q, hpid, hq.1, hq.2⟩
        · rcases ih (insert q seen) r hrm with ⟨q2, hq2, hq2ne, hq2mem⟩
          exact ⟨q2, hq2, hq2ne, fun hc => hq2mem (Finset.mem_insert_of_mem hc)⟩
      · rw [if_neg hq] at hr
        exact ih seen r hr

lemma dedupLoop_seen_characterization :
    ∀ (places : List Place) (seen : Finset String),
      ∀ x ∈ (dedupLoop seen places).2,
        x ∈ seen ∨ (x ≠ "" ∧ ∃ p ∈ places, p.place_id = some x) := by
  intro places
  induction places with
  | nil => intro seen x hx; rw [dedupLoop] at hx; exact Or.inl hx
  | cons p ps ih =>
    intro seen x hx
    cases hpid : p.place_id with
    | none =>
      rw [dedupLoop, hpid] at hx
      dsimp only at hx
      rcases ih seen x hx with h | ⟨hne, r, hrm, hrid⟩
      · exact Or.inl h
      · exact Or.inr ⟨hne, r, List.mem_cons_of_mem p hrm, hrid⟩
    | some q =>
      rw [dedupLoop, hpid] at hx
      dsimp only at hx
      by_cases hq : q ≠ "" ∧ q ∉ seen
      · rw [if_pos hq] at hx
        rcases ih (insert q seen) x hx with h | ⟨hne, r, hrm, hrid⟩
        · rcases Finset.mem_insert.mp h with hxq | hxs
          · subst hxq
            exact Or.inr ⟨hq.1, p, List.mem_cons_self p ps, hpid⟩
          · exact Or.inl hxs
        · exact Or.inr ⟨hne, r, List.mem_cons_of_mem p hrm, hrid⟩
      · rw [if_neg hq] at hx
        rcases ih seen x hx with h | ⟨hne, r, hrm, hrid⟩
        · exact Or.inl h
        · exact Or.inr ⟨hne, r, List.mem_cons_of_mem p hrm, hrid⟩

/-! ### Row normalization: deterministic modulo the clock -/

lemma to_bq_rows_strip (hash : String → String) (dumps : Place → String)
    (loc kw : String) (t1 t2 : String) :
    ∀ places : List Place,
      (to_bq_rows hash dumps t1 loc kw places).map stripTime
        = (to_bq_rows hash dumps t2 loc kw places).map stripTime := by
  intro places
  induction places with
  | nil => simp [to_bq_rows]
  | cons p ps ih =>
    cases hpid : p.place_id with
    | none => simp only [to_bq_rows, hpid]; exact ih
    | some q =>
      by_cases hq : q = ""
      · simp only [to_bq_rows, hpid, if_pos hq]
        exact ih
      · simp only [to_bq_rows, hpid, if_neg hq, List.map_cons]
        rw [ih]
        rfl

lemma to_bq_rows_row_id (hash : String → String) (dumps : Place → String)
    (t loc kw : String) :
    ∀ places : List Place, ∀ r ∈ to_bq_rows hash dumps t loc kw places,
      r.row_id = stable_row_id hash loc kw r.place_id := by
  intro places
  induction places with
  | nil => intro r hr; simp [to_bq_rows] at hr
  | cons p ps ih =>
    intro r hr
    cases hpid : p.place_id with
    | none =>
      rw [to_bq_rows, hpid] at hr
      exact ih r hr
    | some q =>
      rw [to_bq_rows, hpid] at hr
      dsimp only at hr
      by_cases hq : q = ""
      · rw [if_pos hq] at hr
        exact ih r hr
      · rw [if_neg hq] at hr
        rcases List.mem_cons.mp hr with hrp | hrm
        · subst hrp
          rfl
        · exact ih r hrm

/-! ### Batched sink writes -/

lemma insertBatchLoop_nil {α : Type} (errs : Nat → List String) (fuel idx : Nat) :
    insertBatchLoop (α := α) errs fuel idx [] = (0, []) := by
  cases fuel <;> simp [insertBatchLoop]

lemma insertBatchLoop_fuel_irrel {α : Type} (errs : Nat → List String) :
    ∀ (f1 f2 idx : Nat) (rows : List α), rows.length ≤ f1 → rows.length ≤ f2 →
      insertBatchLoop errs f1 idx rows = insertBatchLoop errs f2 idx rows := by
  intro f1
  induction f1 with
  | zero =>
    intro f2 idx rows h1 h2
    have : rows = [] := List.length_eq_zero.mp (Nat.le_zero.mp h1)
    subst this
    rw [insertBatchLoop_nil, insertBatchLoop_nil]
  | succ n ih =>
    intro f2 idx rows h1 h2
    cases rows with
    | nil => rw [insertBatchLoop_nil, insertBatchLoop_nil]
    | cons a as =>
      cases f2 with
      | zero => simp at h2
      | succ m =>
        rw [insertBatchLoop, insertBatchLoop]
        simp only [List.isEmpty_cons, if_false]
        have hlen : ((a :: as).drop BQ_BATCH_SIZE).length ≤ n := by
          simp only [List.length_drop, List.length_cons, BQ_BATCH_SIZE] at h1 ⊢
          omega
        have hlen2 : ((a :: as).drop BQ_BATCH_SIZE).length ≤ m := by
          simp only [List.length_drop, List.length_cons, BQ_BATCH_SIZE] at h2 ⊢
          omega
        rw [ih m (idx + 1) _ hlen hlen2]

lemma insertBatchLoop_shift {α : Type} (errs : Nat → List String) :
    ∀ (fuel k idx : Nat) (rows : List α),
      insertBatchLoop errs fuel (idx + k) rows
        = insertBatchLoop (fun i => errs (i + k)) fuel idx rows := by
  intro fuel
  induction fuel with
  | zero => intro k idx rows; simp [insertBatchLoop]
  | succ n ih =>
    intro k idx rows
    rw [insertBatchLoop, insertBatchLoop]
    by_cases hrows : rows.isEmpty
    · rw [if_pos hrows, if_pos hrows]
    · rw [if_neg hrows, if_neg hrows]
      have hidx : idx + k + 1 = (idx + 1) + k := by omega
      rw [hidx, ih k (idx + 1) (rows.drop BQ_BATCH_SIZE)]

lemma insert_rows_batched_single {α : Type} (errs : Nat → List String) (rows : List α)
    (hne : rows ≠ []) (hlen : rows.length ≤ BQ_BATCH_SIZE) (herr : errs 0 ≠ []) :
    insert_rows_batched_with_logs errs rows
      = (rows.length - (errs 0).length, [(errs 0).take 2]) := by
  cases rows with
  | nil => exact absurd rfl hne
  | cons a as =>
    rw [insert_rows_batched_with_logs]
    simp only [List.length_cons]
    rw [insertBatchLoop]
    simp only [List.isEmpty_cons, if_false]
    rw [List.take_of_length_le (by simpa using hlen), List.drop_eq_nil_of_le (by simpa using hlen)]
    rw [insertBatchLoop_nil, if_pos herr]
    simp

lemma insert_rows_batched_split {α : Type} (errs : Nat → List String) (rows : List α)
    (hne : rows ≠ []) :
    insert_rows_batched_with_logs errs rows
      = ((if errs 0 ≠ [] then (rows.take BQ_BATCH_SIZE).length - (errs 0).length
            else (rows.take BQ_BATCH_SIZE).length)
            + (insert_rows_batched_with_logs (fun i => errs (i + 1)) (rows.drop BQ_BATCH_SIZE)).1,
         (if errs 0 ≠ [] then [(errs 0).take 2] else [])
            ++ (insert_rows_batched_with_logs (fun i => errs (i + 1)) (rows.drop BQ_BATCH_SIZE)).2) := by
  cases rows with
  | nil => exact absurd rfl hne
  | cons a as =>
    rw [insert_rows_batched_with_logs, insert_rows_batched_with_logs]
    simp only [List.length_cons]
    rw [insertBatchLoop]
    simp only [List.isEmpty_cons, if_false]
    have hshift : insertBatchLoop errs as.length (0 + 1) ((a :: as).drop BQ_BATCH_SIZE)
        = insertBatchLoop (fun i => errs (i + 1)) as.length 0 ((a :: as).drop BQ_BATCH_SIZE) :=
      insertBatchLoop_shift errs as.length 1 0 ((a :: as).drop BQ_BATCH_SIZE)
    have hfuel : insertBatchLoop (fun i => errs (i + 1)) as.length 0 ((a :: as).drop BQ_BATCH_SIZE)
        = insertBatchLoop (fun i => errs (i + 1)) ((a :: as).drop BQ_BATCH_SIZE).length 0
            ((a :: as).drop BQ_BATCH_SIZE) := by
      apply insertBatchLoop_fuel_irrel
      · simp only [List.length_drop, List.length_cons, BQ_BATCH_SIZE]
        omega
      · exact le_refl _
    rw [show (0 : Nat) + 1 = 0 + 1 from rfl] at hshift
    rw [hshift, hfuel]
    by_cases herr : errs 0 ≠ []
    · rw [if_pos herr, if_pos herr, if_pos herr]
      simp
    · rw [if_neg herr, if_neg herr, if_neg herr]
      simp

/-! ### Orchestrator invariants -/

lemma tileStep_fs_counter (env : Nat → HttpOutcome) (limit : Nat)
    (sink : Nat → Nat → List String) (hash : String → String) (dumps : Place → String)
    (clock : Nat → String) (location keyword : String) (st : RunState) :
    (tileStep env limit sink hash dumps clock location keyword st).fs.api_call_counter
      = (fetch_nearby_all_pages env limit st.fs).2.api_call_counter := rfl

lemma tileStep_counter_le (env : Nat → HttpOutcome) (limit : Nat)
    (sink : Nat → Nat → List String) (hash : String → String) (dumps : Place → String)
    (clock : Nat → String) (location keyword : String) (st : RunState)
    (h : st.fs.api_call_counter ≤ limit) :
    (tileStep env limit sink hash dumps clock location keyword st).fs.api_call_counter ≤ limit := by
  rw [tileStep_fs_counter]
  exact fetchPagesLoop_counter_le env limit MAX_PAGES_PER_TILE [] none st.fs h

lemma mainLoop_counter_le (env : Nat → HttpOutcome) (limit : Nat)
    (sink : Nat → Nat → List String) (hash : String → String) (dumps : Place → String)
    (clock : Nat → String) (location : String) :
    ∀ (pairs : List (String × ℚ × ℚ)) (st : RunState),
      st.fs.api_call_counter ≤ limit →
      (mainLoop env limit sink hash dumps clock location pairs st).fs.api_call_counter ≤ limit := by
  intro pairs
  induction pairs with
  | nil => intro st h; simpa [mainLoop] using h
  | cons pr rest ih =>
    intro st h
    cases pr with
    | mk kw tile =>
      rw [mainLoop]
      by_cases hb : limit ≤ st.fs.api_call_counter
      · rw [if_pos hb]
        exact h
      · rw [if_neg hb]
        exact ih _ (tileStep_counter_le env limit sink hash dumps clock location kw st h)

lemma tileStep_found_eq (env : Nat → HttpOutcome) (limit : Nat)
    (sink : Nat → Nat → List String) (hash : String → String) (dumps : Place → String)
    (clock : Nat → String) (location keyword : String) (st : RunState)
    (h : st.total_found_unique = st.seen_place_ids.card) :
    (tileStep env limit sink hash dumps clock location keyword st).total_found_unique
      = (tileStep env limit sink hash dumps clock location keyword st).seen_place_ids.card := by
  show st.total_found_unique
      + (dedupLoop st.seen_place_ids (fetch_nearby_all_pages env limit st.fs).1).1.length
    = (dedupLoop st.seen_place_ids (fetch_nearby_all_pages env limit st.fs).1).2.card
  rw [dedupLoop_card, h]

lemma mainLoop_found_eq (env : Nat → HttpOutcome) (limit : Nat)
    (sink : Nat → Nat → List String) (hash : String → String) (dumps : Place → String)
    (clock : Nat → String) (location : String) :
    ∀ (pairs : List (String × ℚ × ℚ)) (st : RunState),
      st.total_found_unique = st.seen_place_ids.card →
      (mainLoop env limit sink hash dumps clock location pairs st).total_found_unique
        = (mainLoop env limit sink hash dumps clock location pairs st).seen_place_ids.card := by
  intro pairs
  induction pairs with
  | nil => intro st h; simpa [mainLoop] using h
  | cons pr rest ih =>
    intro st h
    cases pr with
    | mk kw tile =>
      rw [mainLoop]
      by_cases hb : limit ≤ st.fs.api_call_counter
      · rw [if_pos hb]
        exact h
      · rw [if_neg hb]
        exact ih _ (tileStep_found_eq env limit sink hash dumps clock location kw st h)

/-! ### Grid generation -/

lemma round6_err (x : ℚ) : |round6 x - x| ≤ 1/2000000 := by
  rw [round6]
  have h := abs_sub_round (x * 1000000)
  have heq : ((round (x * 1000000) : ℤ) : ℚ)/1000000 - x
      = ((round (x * 1000000) : ℚ) - x * 1000000)/1000000 := by
    ring
  rw [heq, abs_div, abs_of_pos (by norm_num : (0:ℚ) < 1000000)]
  rw [div_le_iff₀ (by norm_num : (0:ℚ) < 1000000)]
  rw [abs_sub_comm] at h
  calc |(round (x * 1000000) : ℚ) - x * 1000000| ≤ 1/2 := h
    _ = 1/2000000 * 1000000 := by norm_num

lemma mem_axis_min (step minv maxv : ℚ) (h : minv ≤ maxv) :
    minv ∈ axisLoopAux step maxv (axisFuel minv maxv step) minv := by
  rw [axisFuel, axisLoopAux, if_pos h]
  exact List.mem_cons_self _ _

lemma axis_cover_aux (step maxv : ℚ) (hstep : 0 < step) :
    ∀ (fuel : Nat) (v : ℚ), v ≤ maxv → (⌈(maxv - v)/step⌉.toNat < fuel) →
      ∃ w ∈ axisLoopAux step maxv fuel v, w ≤ maxv ∧ maxv - w < step := by
  intro fuel
  induction fuel with
  | zero => intro v hv hf; exact absurd hf (Nat.not_lt_zero _)
  | succ n ih =>
    intro v hv hf
    rw [axisLoopAux, if_pos hv]
    by_cases hnext : maxv < v + step
    · exact ⟨v, List.mem_cons_self _ _, hv, by linarith⟩
    · push_neg at hnext
      have hs0 : step ≠ 0 := ne_of_gt hstep
      have h1 : (1:ℚ) ≤ (maxv - v)/step := by
        rw [le_div_iff₀ hstep]
        linarith
      have hceil1 : 1 ≤ ⌈(maxv - v)/step⌉ := by
        calc (1:ℤ) = ⌈(1:ℚ)⌉ := (Int.ceil_one).symm
          _ ≤ ⌈(maxv - v)/step⌉ := Int.ceil_mono h1
      have hdec : ⌈(maxv - (v + step))/step⌉ = ⌈(maxv - v)/step⌉ - 1 := by
        have heq : (maxv - (v + step))/step = (maxv - v)/step - 1 := by
          field_simp
          ring
        rw [heq, Int.ceil_sub_one]
      have hf2 : (⌈(maxv - (v + step))/step⌉).toNat < n := by
        rw [hdec]
        omega
      rcases ih (v + step) hnext hf2 with ⟨w, hw, hwle, hwlt⟩
      exact ⟨w, List.mem_cons_of_mem _ hw, hwle, hwlt⟩

lemma axis_cover (step minv maxv : ℚ) (hstep : 0 < step) (h : minv ≤ maxv) :
    ∃ w ∈ axisLoopAux step maxv (axisFuel minv maxv step) minv,
      w ≤ maxv ∧ maxv - w < step := by
  apply axis_cover_aux step maxv hstep _ minv h
  rw [axisFuel]
  omega

lemma mem_generate_grid (bbox : Bbox) (latStep lngStep la ln : ℚ)
    (hla : la ∈ axisLoopAux latStep bbox.max_lat
        (axisFuel bbox.min_lat bbox.max_lat latStep) bbox.min_lat)
    (hln : ln ∈ axisLoopAux lngStep bbox.max_lng
        (axisFuel bbox.min_lng bbox.max_lng lngStep) bbox.min_lng) :
    (round6 la, round6 ln) ∈ generate_grid_points bbox latStep lngStep := by
  rw [generate_grid_points, List.mem_flatMap]
  exact ⟨la, hla, List.mem_map_of_mem _ hln⟩

lemma corner_bound (c v step : ℚ) (h0 : 0 ≤ c - v) (h1 : c - v < step) :
    |c - round6 v| < step + 1/2000000 := by
  have h2 := round6_err v
  have h3 : c - round6 v = (c - v) + (v - round6 v) := by ring
  rw [h3]
  calc |(c - v) + (v - round6 v)| ≤ |c - v| + |v - round6 v| := abs_add _ _
    _ = (c - v) + |round6 v - v| := by rw [abs_of_nonneg h0, abs_sub_comm]
    _ < step + 1/2000000 := by linarith

lemma axisLoopExits_nonpos (step maxv : ℚ) (hstep : step ≤ 0) :
    ∀ (fuel : Nat) (v : ℚ), v ≤ maxv → axisLoopExits step maxv fuel v = false := by
  intro fuel
  induction fuel with
  | zero => intro v hv; rfl
  | succ n ih =>
    intro v hv
    rw [axisLoopExits, if_pos hv]
    exact ih (v + step) (by linarith)

lemma pageSleep_none (s : FetchState) : pageSleep none s = s := by
  simp [pageSleep, truthyStr]

lemma fetchPagesLoop_httpNone (env : Nat → HttpOutcome) (limit pages : Nat)
    (s s1 : FetchState) (acc : List Place)
    (hb : ¬ limit ≤ s.api_call_counter)
    (hh : http_get_with_retry env limit s = (none, s1)) :
    fetchPagesLoop env limit (pages + 1) acc none s = (acc, s1) := by
  rw [fetchPagesLoop, if_neg hb, pageSleep_none, hh]

lemma fetchPagesLoop_badStatus (env : Nat → HttpOutcome) (limit pages : Nat)
    (s s1 : FetchState) (acc : List Place) (payload : Payload)
    (hb : ¬ limit ≤ s.api_call_counter)
    (hh : http_get_with_retry env limit s = (some payload, s1))
    (hoql : payload.status ≠ some "OVER_QUERY_LIMIT")
    (hst : ¬ (payload.status = some "OK" ∨ payload.status = some "ZERO_RESULTS")) :
    fetchPagesLoop env limit (pages + 1) acc none s = (acc, s1) := by
  rw [fetchPagesLoop, if_neg hb, pageSleep_none, hh]
  dsimp only
  rw [if_neg hoql]
  dsimp only
  rw [if_neg hst]

/-! ### Claim theorems -/

/-- Claim C1: the request-budget counter never exceeds
`MAX_API_CALLS_TOTAL`: the HTTP layer preserves `counter ≤ limit`;
once the counter has reached the limit, `http_get_with_retry` returns
`None` with the state unchanged (no request is issued); and a whole
orchestrator run from the initial state keeps the counter at or below
the limit. -/
theorem budget_counter_never_exceeds_limit :
    (∀ (env : Nat → HttpOutcome) (limit : Nat) (s : FetchState),
        s.api_call_counter ≤ limit →
        (http_get_with_retry env limit s).2.api_call_counter ≤ limit) ∧
    (∀ (env : Nat → HttpOutcome) (limit : Nat) (s : FetchState),
        limit ≤ s.api_call_counter →
        http_get_with_retry env limit s = (none, s)) ∧
    (∀ (env : Nat → HttpOutcome) (limit : Nat) (sink : Nat → Nat → List String)
        (hash : String → String) (dumps : Place → String) (clock : Nat → String)
        (location : String) (pairs : List (String × ℚ × ℚ)),
        (mainLoop env limit sink hash dumps clock location pairs
            initialRunState).fs.api_call_counter ≤ limit) := by
  refine ⟨http_get_with_retry_counter_le, http_get_with_retry_refused, ?_⟩
  intro env limit sink hash dumps clock location pairs
  exact mainLoop_counter_le env limit sink hash dumps clock location pairs
    initialRunState (Nat.zero_le limit)

/-- Witness for C1 at concrete inputs: a fresh state stays within the
budget of 10, and a state already at the limit is refused. -/
theorem budget_counter_never_exceeds_limit_witness :
    initialFetchState.api_call_counter ≤ MAX_API_CALLS_TOTAL ∧
    (http_get_with_retry c1env MAX_API_CALLS_TOTAL
        initialFetchState).2.api_call_counter ≤ MAX_API_CALLS_TOTAL ∧
    MAX_API_CALLS_TOTAL ≤ c1exhausted.api_call_counter ∧
    http_get_with_retry c1env MAX_API_CALLS_TOTAL c1exhausted = (none, c1exhausted) :=
  ⟨by decide,
   budget_counter_never_exceeds_limit.1 c1env MAX_API_CALLS_TOTAL initialFetchState
     (by decide),
   by decide,
   budget_counter_never_exceeds_limit.2.1 c1env MAX_API_CALLS_TOTAL c1exhausted
     (by decide)⟩

/-- Claim C3 (failing part, run on the failing input): a 404 response —
a non-transient 4xx that is not a rate limit — is nevertheless retried:
with every request answered 404, one logical `http_get_with_retry` call
sends 3 requests (counting all of them, sleeping the backoff waits
1, 2, 4) before giving up, where the claim requires exactly one. -/
theorem http_404_response_is_retried :
    (http_get_with_retry c3env MAX_API_CALLS_TOTAL initialFetchState).1 = none ∧
    (http_get_with_retry c3env MAX_API_CALLS_TOTAL initialFetchState).2.sent = 3 ∧
    (http_get_with_retry c3env MAX_API_CALLS_TOTAL
        initialFetchState).2.api_call_counter = 3 ∧
    (http_get_with_retry c3env MAX_API_CALLS_TOTAL initialFetchState).2.sleeps
      = [1, 2, 4] := by
  refine ⟨by decide, by decide, by decide, ?_⟩
  norm_num [http_get_with_retry, httpAttemptLoop, MAX_HTTP_RETRIES,
    MAX_API_CALLS_TOTAL, backoffWait, BACKOFF_BASE_SEC, c3env, initialFetchState,
    okPayload]

/-- Claim C5 (counterexample): a request that fails at the network
layer is sent but not counted.  With the first request timing out and
the second succeeding, two requests are sent while the counter ends at
1, refuting "every outbound request that is sent ... adds exactly 1 to
the counter". -/
theorem network_failure_not_counted_counterexample :
    (http_get_with_retry c5env MAX_API_CALLS_TOTAL initialFetchState).2.sent = 2 ∧
    (http_get_with_retry c5env MAX_API_CALLS_TOTAL
        initialFetchState).2.api_call_counter = 1 ∧
    (http_get_with_retry c5env MAX_API_CALLS_TOTAL
          initialFetchState).2.api_call_counter
      ≠ (http_get_with_retry c5env MAX_API_CALLS_TOTAL initialFetchState).2.sent :=
  ⟨by decide, by decide, by decide⟩

/-- Claim C5 (amended): the counter increments exactly once per request
that yields an HTTP response; requests that fail at the network layer
(timeout / connection error) before a response are sent but not
counted.  Formally, the counter increase over a `http_get_with_retry`
call equals the number of response outcomes among the oracle indices it
consumed. -/
theorem counter_increments_once_per_response (env : Nat → HttpOutcome)
    (limit : Nat) (s : FetchState) :
    s.sent ≤ (http_get_with_retry env limit s).2.sent ∧
    (http_get_with_retry env limit s).2.api_call_counter
      = s.api_call_counter
        + respCountRange env s.sent
            ((http_get_with_retry env limit s).2.sent - s.sent) :=
  ⟨httpAttemptLoop_sent_mono env limit MAX_HTTP_RETRIES 1 s,
   httpAttemptLoop_counter_eq env limit MAX_HTTP_RETRIES 1 s⟩

/-- Witness for the amended C5 at concrete inputs: on the
timeout-then-success oracle, the counter increase equals the number of
response outcomes among the consumed oracle indices. -/
theorem counter_increments_once_per_response_witness :
    initialFetchState.sent
        ≤ (http_get_with_retry c5env MAX_API_CALLS_TOTAL initialFetchState).2.sent ∧
    (http_get_with_retry c5env MAX_API_CALLS_TOTAL
          initialFetchState).2.api_call_counter
      = initialFetchState.api_call_counter
        + respCountRange c5env initialFetchState.sent
            ((http_get_with_retry c5env MAX_API_CALLS_TOTAL
                initialFetchState).2.sent - initialFetchState.sent) :=
  counter_increments_once_per_response c5env MAX_API_CALLS_TOTAL initialFetchState

/-- Claim C6: the dedup loop admits, in order (its output is a sublist
of its input), exactly the first occurrence of each distinct truthy
`place_id` not already seen; ids already seen or falsy are never
admitted; and every admitted record carries a truthy, fresh id. -/
theorem dedup_first_occurrence_wins
    (seen : Finset String) (places : List Place) :
    List.Sublist (dedupLoop seen places).1 places ∧
    (∀ x : String, x ∉ seen → x ≠ "" →
      (dedupLoop seen places).1.filter (fun p => decide (p.place_id = some x))
        = (places.filter (fun p => decide (p.place_id = some x))).take 1) ∧
    (∀ x : String, (x ∈ seen ∨ x = "") →
      (dedupLoop seen places).1.filter (fun p => decide (p.place_id = some x)) = []) ∧
    (∀ p ∈ (dedupLoop seen places).1, ∃ q, p.place_id = some q ∧ q ≠ "" ∧ q ∉ seen) := by
  refine ⟨dedupLoop_sublist places seen, ?_, ?_, dedupLoop_truthy places seen⟩
  · intro x hx1 hx2
    rw [dedupLoop_filter x places seen, if_pos ⟨hx1, hx2⟩]
  · intro x hx
    rw [dedupLoop_filter x places seen, if_neg ?_]
    intro hc
    rcases hx with h | h
    · exact hc.1 h
    · exact hc.2 h

/-- Witness for C6: on `[placeA, placeB, placeA2]` (the id `"pid1"`
appearing twice) the loop keeps exactly the first `"pid1"` record. -/
theorem dedup_first_occurrence_wins_witness :
    ("pid1" ∉ (∅ : Finset String)) ∧ ("pid1" ≠ "") ∧
    (dedupLoop ∅ [placeA, placeB, placeA2]).1.filter
        (fun p => decide (p.place_id = some "pid1"))
      = (([placeA, placeB, placeA2].filter
          (fun p => decide (p.place_id = some "pid1"))).take 1) :=
  ⟨by decide, by decide,
   (dedup_first_occurrence_wins ∅ [placeA, placeB, placeA2]).2.1
     "pid1" (by decide) (by decide)⟩

/-- Claim C7: normalization is deterministic modulo the fetch
timestamp: two runs of `to_bq_rows` on identical inputs under different
clock readings agree on every field except `fetched_at`, and every
produced row's `row_id` is the hash of (location, keyword, place_id) —
the timestamp is not an input of the hash. -/
theorem normalize_deterministic_modulo_timestamp
    (hash : String → String) (dumps : Place → String) (loc kw t1 t2 : String)
    (places : List Place) :
    (to_bq_rows hash dumps t1 loc kw places).map stripTime
        = (to_bq_rows hash dumps t2 loc kw places).map stripTime ∧
    (∀ r ∈ to_bq_rows hash dumps t1 loc kw places,
        r.row_id = stable_row_id hash loc kw r.place_id) :=
  ⟨to_bq_rows_strip hash dumps loc kw t1 t2 places,
   to_bq_rows_row_id hash dumps t1 loc kw places⟩

/-- Witness for C7 at a concrete record: the concrete produced row has
`row_id` equal to the hash of `"L||K||pid1"`. -/
theorem normalize_deterministic_witness :
    (c7row ∈ to_bq_rows c7hash c7dumps "t1" "L" "K" [placeA]) ∧
    c7row.row_id = stable_row_id c7hash "L" "K" c7row.place_id :=
  ⟨by decide,
   (normalize_deterministic_modulo_timestamp c7hash c7dumps "L" "K" "t1" "t2"
      [placeA]).2 c7row (by decide)⟩

/-- Claim C9: the paginated fetch never discards accumulated results:
the loop's return value always extends the accumulator; when the budget
is exhausted before a page, when all retries for a page are exhausted
(`http_get_with_retry` returns `None`), or when a page's body status is
unrecognized, the loop stops and returns exactly the accumulated
results. -/
theorem fetch_pages_keeps_accumulated_results :
    (∀ (env : Nat → HttpOutcome) (limit pages : Nat) (tok : Option String)
        (s : FetchState) (acc : List Place),
        (fetchPagesLoop env limit pages acc tok s).1
          = acc ++ (fetchPagesLoop env limit pages [] tok s).1) ∧
    (∀ (env : Nat → HttpOutcome) (limit pages : Nat) (tok : Option String)
        (s : FetchState) (acc : List Place), limit ≤ s.api_call_counter →
        fetchPagesLoop env limit (pages + 1) acc tok s = (acc, s)) ∧
    (∀ (env : Nat → HttpOutcome) (limit pages : Nat) (s s1 : FetchState)
        (acc : List Place), ¬ limit ≤ s.api_call_counter →
        http_get_with_retry env limit s = (none, s1) →
        fetchPagesLoop env limit (pages + 1) acc none s = (acc, s1)) ∧
    (∀ (env : Nat → HttpOutcome) (limit pages : Nat) (s s1 : FetchState)
        (acc : List Place) (payload : Payload), ¬ limit ≤ s.api_call_counter →
        http_get_with_retry env limit s = (some payload, s1) →
        payload.status ≠ some "OVER_QUERY_LIMIT" →
        ¬ (payload.status = some "OK" ∨ payload.status = some "ZERO_RESULTS") →
        fetchPagesLoop env limit (pages + 1) acc none s = (acc, s1)) := by
  refine ⟨?_, ?_, ?_, ?_⟩
  · intro env limit pages tok s acc
    exact (fetchPagesLoop_acc env limit pages tok s acc).1
  · intro env limit pages tok s acc h
    exact fetchPagesLoop_refused env limit pages acc tok s h
  · intro env limit pages s s1 acc hb hh
    exact fetchPagesLoop_httpNone env limit pages s s1 acc hb hh
  · intro env limit pages s s1 acc payload hb hh hoql hst
    exact fetchPagesLoop_badStatus env limit pages s s1 acc payload hb hh hoql hst

/-- Witness for C9 at concrete inputs: a page answered with body status
`INVALID_REQUEST` stops pagination and returns the accumulator
untouched. -/
theorem fetch_pages_keeps_accumulated_results_witness :
    (¬ MAX_API_CALLS_TOTAL ≤ initialFetchState.api_call_counter) ∧
    http_get_with_retry c9env MAX_API_CALLS_TOTAL initialFetchState
      = (some { status := some "INVALID_REQUEST", results := [], next_page_token := none },
         c9state) ∧
    fetchPagesLoop c9env MAX_API_CALLS_TOTAL 1 [placeA] none initialFetchState
      = ([placeA], c9state) :=
  ⟨by decide, by decide,
   fetch_pages_keeps_accumulated_results.2.2.2 c9env MAX_API_CALLS_TOTAL 0
     initialFetchState c9state [placeA]
     { status := some "INVALID_REQUEST", results := [], next_page_token := none }
     (by decide) (by decide) (by decide) (by decide)⟩

/-- Claim C10: one tile iteration preserves "found-unique counter =
size of the seen set", a full run from the initial state satisfies it
at the end (and hence, by induction, at every tile boundary), every
admitted record carries a truthy fresh id, and the seen set only ever
contains previously seen ids or truthy ids of fetched records. -/
theorem found_unique_equals_distinct_seen :
    (∀ (env : Nat → HttpOutcome) (limit : Nat) (sink : Nat → Nat → List String)
        (hash : String → String) (dumps : Place → String) (clock : Nat → String)
        (location keyword : String) (st : RunState),
        st.total_found_unique = st.seen_place_ids.card →
        (tileStep env limit sink hash dumps clock location keyword st).total_found_unique
          = (tileStep env limit sink hash dumps clock location keyword
              st).seen_place_ids.card) ∧
    (∀ (env : Nat → HttpOutcome) (limit : Nat) (sink : Nat → Nat → List String)
        (hash : String → String) (dumps : Place → String) (clock : Nat → String)
        (location : String) (pairs : List (String × ℚ × ℚ)),
        (mainLoop env limit sink hash dumps clock location pairs
            initialRunState).total_found_unique
          = (mainLoop env limit sink hash dumps clock location pairs
              initialRunState).seen_place_ids.card) ∧
    (∀ (seen : Finset String) (places : List Place),
        (∀ p ∈ (dedupLoop seen places).1, ∃ q, p.place_id = some q ∧ q ≠ "" ∧ q ∉ seen) ∧
        (∀ x ∈ (dedupLoop seen places).2,
          x ∈ seen ∨ (x ≠ "" ∧ ∃ p ∈ places, p.place_id = some x))) := by
  refine ⟨tileStep_found_eq, ?_, ?_⟩
  · intro env limit sink hash dumps clock location pairs
    exact mainLoop_found_eq env limit sink hash dumps clock location pairs
      initialRunState (by simp [initialRunState])
  · intro seen places
    exact ⟨dedupLoop_truthy places seen, dedupLoop_seen_characterization places seen⟩

/-- Witness for C10 at concrete inputs: the invariant holds at the
initial state and is preserved by one tile step. -/
theorem found_unique_equals_distinct_seen_witness :
    initialRunState.total_found_unique = initialRunState.seen_place_ids.card ∧
    (tileStep c1env MAX_API_CALLS_TOTAL (fun _ _ => []) c7hash c7dumps
        (fun _ => "t") "L" "K" initialRunState).total_found_unique
      = (tileStep c1env MAX_API_CALLS_TOTAL (fun _ _ => []) c7hash c7dumps
          (fun _ => "t") "L" "K" initialRunState).seen_place_ids.card :=
  ⟨by decide,
   found_unique_equals_distinct_seen.1 c1env MAX_API_CALLS_TOTAL (fun _ _ => [])
     c7hash c7dumps (fun _ => "t") "L" "K" initialRunState (by decide)⟩

lemma axis_nonpos_step_never_exits :
    ∀ step_m : ℚ, step_m ≤ 0 → ∀ bbox : Bbox, bbox.min_lat ≤ bbox.max_lat →
      ∀ fuel : Nat,
        axisLoopExits (meters_to_lat_deg step_m) bbox.max_lat fuel bbox.min_lat
          = false := by
  intro m hm bbox hb fuel
  apply axisLoopExits_nonpos
  · rw [meters_to_lat_deg]
    exact div_nonpos_iff.mpr (Or.inr ⟨hm, by norm_num⟩)
  · exact hb

/-- Claim C2 (failing part, run on the failing input): with
`step_m = 0` over the Rotterdam bounding box, the latitude `while`
loop of `generate_grid_points` never exits — its condition is still
true after any number of iterations.  No validation exists and no
ConfigurationError is ever raised anywhere in the script: grid
generation loops forever instead of failing fast.  (The support lemma
above proves this for every non-positive step and valid box.) -/
theorem grid_step_zero_loops_forever :
    ∀ fuel : Nat,
      axisLoopExits (meters_to_lat_deg 0) ROTTERDAM_BBOX.max_lat fuel
        ROTTERDAM_BBOX.min_lat = false :=
  fun fuel =>
    axis_nonpos_step_never_exits 0 (le_refl 0) ROTTERDAM_BBOX
      (by norm_num [ROTTERDAM_BBOX]) fuel

/-- Claim C8: the batch writer splits its input at `BQ_BATCH_SIZE`
(500): on a single batch with a non-empty sink error list it reports
`batch size - error count` inserted and retains the `errors[:2]`
sample; on a longer list it processes the first 500 rows as one batch
and recurses on the rest with the error oracle shifted, so every batch
is accounted the same way and the run continues past errored
batches. -/
theorem batch_writer_accounting :
    (∀ (α : Type) (errs : Nat → List String) (rows : List α),
        rows ≠ [] → rows.length ≤ BQ_BATCH_SIZE → errs 0 ≠ [] →
        insert_rows_batched_with_logs errs rows
          = (rows.length - (errs 0).length, [(errs 0).take 2])) ∧
    (∀ (α : Type) (errs : Nat → List String) (rows : List α), rows ≠ [] →
        insert_rows_batched_with_logs errs rows
          = ((if errs 0 ≠ [] then (rows.take BQ_BATCH_SIZE).length - (errs 0).length
                else (rows.take BQ_BATCH_SIZE).length)
                + (insert_rows_batched_with_logs (fun i => errs (i + 1))
                    (rows.drop BQ_BATCH_SIZE)).1,
              (if errs 0 ≠ [] then [(errs 0).take 2] else [])
                ++ (insert_rows_batched_with_logs (fun i => errs (i + 1))
                    (rows.drop BQ_BATCH_SIZE)).2)) :=
  ⟨fun _ errs rows hne hlen herr => insert_rows_batched_single errs rows hne hlen herr,
   fun _ errs rows hne => insert_rows_batched_split errs rows hne⟩

set_option maxRecDepth 20000 in
/-- Witness for C8, the end-to-end scenario: 2 row-level errors in a
batch of 500 yield 498 inserted and a non-empty retained sample. -/
theorem batch_writer_accounting_witness :
    (List.replicate 500 () ≠ []) ∧
    ((List.replicate 500 ()).length ≤ BQ_BATCH_SIZE) ∧ (c8errs 0 ≠ []) ∧
    insert_rows_batched_with_logs c8errs (List.replicate 500 ())
      = (498, [["rowError1", "rowError2"]]) := by
  refine ⟨by decide, by decide, by decide, ?_⟩
  have h := batch_writer_accounting.1 Unit c8errs (List.replicate 500 ())
    (by decide) (by decide) (by decide)
  rw [h]
  decide

/-- Claim C4 (amended): for every valid bounding box and positive
degree steps, the grid is non-empty and every corner lies within one
full step plus the 6-decimal rounding tolerance (half of 10⁻⁶ degrees)
of some generated coordinate, per axis. -/
theorem grid_nonempty_and_corners_within_one_step (bbox : Bbox)
    (latStep lngStep : ℚ)
    (h1 : bbox.min_lat < bbox.max_lat) (h2 : bbox.min_lng < bbox.max_lng)
    (h3 : 0 < latStep) (h4 : 0 < lngStep) :
    generate_grid_points bbox latStep lngStep ≠ [] ∧
    ∀ c ∈ corners bbox, ∃ p ∈ generate_grid_points bbox latStep lngStep,
      |c.1 - p.1| < latStep + 1/2000000 ∧ |c.2 - p.2| < lngStep + 1/2000000 := by
  have hminlat := mem_axis_min latStep bbox.min_lat bbox.max_lat h1.le
  have hminlng := mem_axis_min lngStep bbox.min_lng bbox.max_lng h2.le
  obtain ⟨wla, hwla, hwla_le, hwla_lt⟩ :=
    axis_cover latStep bbox.min_lat bbox.max_lat h3 h1.le
  obtain ⟨wln, hwln, hwln_le, hwln_lt⟩ :=
    axis_cover lngStep bbox.min_lng bbox.max_lng h4 h2.le
  have bmin_lat : |bbox.min_lat - round6 bbox.min_lat| < latStep + 1/2000000 :=
    corner_bound bbox.min_lat bbox.min_lat latStep (by linarith) (by linarith)
  have bmin_lng : |bbox.min_lng - round6 bbox.min_lng| < lngStep + 1/2000000 :=
    corner_bound bbox.min_lng bbox.min_lng lngStep (by linarith) (by linarith)
  have bmax_lat : |bbox.max_lat - round6 wla| < latStep + 1/2000000 :=
    corner_bound bbox.max_lat wla latStep (by linarith) hwla_lt
  have bmax_lng : |bbox.max_lng - round6 wln| < lngStep + 1/2000000 :=
    corner_bound bbox.max_lng wln lngStep (by linarith) hwln_lt
  constructor
  · exact List.ne_nil_of_mem
      (mem_generate_grid bbox latStep lngStep _ _ hminlat hminlng)
  · intro c hc
    simp only [corners, List.mem_cons, List.not_mem_nil, or_false] at hc
    rcases hc with rfl | rfl | rfl | rfl
    · exact ⟨(round6 bbox.min_lat, round6 bbox.min_lng),
        mem_generate_grid bbox latStep lngStep _ _ hminlat hminlng,
        bmin_lat, bmin_lng⟩
    · exact ⟨(round6 bbox.min_lat, round6 wln),
        mem_generate_grid bbox latStep lngStep _ _ hminlat hwln,
        bmin_lat, bmax_lng⟩
    · exact ⟨(round6 wla, round6 bbox.min_lng),
        mem_generate_grid bbox latStep lngStep _ _ hwla hminlng,
        bmax_lat, bmin_lng⟩
    · exact ⟨(round6 wla, round6 wln),
        mem_generate_grid bbox latStep lngStep _ _ hwla hwln,
        bmax_lat, bmax_lng⟩

/-- Witness for the amended C4 at concrete inputs: the box spanning 0.9
steps is covered within one step plus tolerance; in particular the far
corner is. -/
theorem grid_corners_within_one_step_witness :
    (c4bbox.min_lat < c4bbox.max_lat) ∧ (c4bbox.min_lng < c4bbox.max_lng) ∧
    ((0:ℚ) < 1/100) ∧
    generate_grid_points c4bbox (1/100) (1/100) ≠ [] ∧
    (∃ p ∈ generate_grid_points c4bbox (1/100) (1/100),
      |c4bbox.max_lat - p.1| < 1/100 + 1/2000000 ∧
      |c4bbox.max_lng - p.2| < 1/100 + 1/2000000) := by
  have h := grid_nonempty_and_corners_within_one_step c4bbox (1/100) (1/100)
    (by norm_num [c4bbox]) (by norm_num [c4bbox]) (by norm_num) (by norm_num)
  refine ⟨by norm_num [c4bbox], by norm_num [c4bbox], by norm_num, h.1, ?_⟩
  exact h.2 (c4bbox.max_lat, c4bbox.max_lng) (by simp [corners])

/-- Claim C4 (counterexample): for the valid box spanning 0.9 steps on
each axis with step 0.01 degrees, the grid is the single point (0, 0),
and the far corner (0.009, 0.009) is not within half a step of any
generated coordinate — refuting "every corner lies within half a step
of some generated coordinate". -/
theorem grid_half_step_counterexample :
    (c4bbox.min_lat < c4bbox.max_lat) ∧ (c4bbox.min_lng < c4bbox.max_lng) ∧
    ((0:ℚ) < 1/100) ∧
    generate_grid_points c4bbox (1/100) (1/100) = [(0, 0)] ∧
    ¬ ∃ p ∈ generate_grid_points c4bbox (1/100) (1/100),
        |c4bbox.max_lat - p.1| ≤ (1/100)/2 ∧ |c4bbox.max_lng - p.2| ≤ (1/100)/2 := by
  have hceil : ⌈((9:ℚ)/1000 - 0)/(1/100)⌉ = 1 := by
    have hle : ⌈((9:ℚ)/1000 - 0)/(1/100)⌉ ≤ 1 := Int.ceil_le.mpr (by norm_num)
    have hpos : 0 < ⌈((9:ℚ)/1000 - 0)/(1/100)⌉ := Int.ceil_pos.mpr (by norm_num)
    omega
  have hfl : axisFuel (0:ℚ) (9/1000) (1/100) = 2 := by
    rw [axisFuel, hceil]
    rfl
  have hax : axisLoopAux (1/100 : ℚ) (9/1000) 2 0 = [0] := by
    norm_num [axisLoopAux]
  have hgrid : generate_grid_points c4bbox (1/100) (1/100) = [(0, 0)] := by
    rw [generate_grid_points]
    show (axisLoopAux (1/100) (9/1000) (axisFuel 0 (9/1000) (1/100)) 0).flatMap
        (fun la => (axisLoopAux (1/100) (9/1000) (axisFuel 0 (9/1000) (1/100)) 0).map
          fun ln => (round6 la, round6 ln)) = [(0, 0)]
    rw [hfl, hax]
    norm_num [round6]
  refine ⟨by norm_num [c4bbox], by norm_num [c4bbox], by norm_num, hgrid, ?_⟩
  rw [hgrid]
  rintro ⟨p, hp, hlat, hlng⟩
  simp only [List.mem_singleton] at hp
  subst hp
  have hmax : c4bbox.max_lat = 9/1000 := rfl
  rw [hmax] at hlat
  have habs : |(9:ℚ)/1000 - (0, (0:ℚ)).1| = 9/1000 := by
    rw [abs_of_nonneg] <;> norm_num
  rw [habs] at hlat
  norm_num at hlat

end GooglePoi
